import Mathlib

/-!
Verification of the `Vector` value type of pgvectorcpp
(src-cpp/core/vector.hpp, src-cpp/core/vector.cpp).

The C++ class is shallowly embedded as follows.

* The four fields `vl_len_` (int32), `dim` (int16), `unused` (int16) and
  `data` (std::vector of 32-bit float) become a Lean structure `VectorM α`
  whose element type `α` is a parameter.
* For the serialization claims the elements are taken to be their raw
  32-bit patterns (`α := Nat`, each value `< 2 ^ 32`), because `serialize`
  and `deserialize` copy the float bytes verbatim with `memcpy` and never
  do arithmetic on them.
* For the arithmetic claims the IEEE-754 single-precision operations are
  kept abstract in a structure `FloatModel α` (carrier, zero literal,
  add, sub, mul, div, sqrt, the boolean comparisons `<` and `==`); the
  theorems hold for every interpretation, hence in particular for the
  hardware floats the C++ code computes with.
* The C++ exceptions, all thrown as `std::runtime_error` with a
  distinguishing message, become an error type `VErr` returned through
  `Except`.
* Machine integers are modelled as `Int` with explicit range hypotheses
  (int16 in `[-32768, 32767]`, int32 in `[-2^31, 2^31)`), and the
  little-endian byte images with explicit `% 256` arithmetic on `Nat`.
-/

namespace PgVec

/-- Error conditions of the C++ code.  `invalidDimension` carries the
exact `std::runtime_error` message text of `Vector::validate_dimension`;
`dimensionMismatch` carries the two dimensions that
`Vector::check_compatibility` in v1.cpp reports.  `truncatedInput` exists in
the error vocabulary of the spec; it lets theorems state which errors the
code can and cannot produce. -/
inductive VErr where
  | invalidDimension (msg : String)
  | dimensionMismatch (dima dimb : Int)
  | indexOutOfRange
  | truncatedInput
deriving DecidableEq

deriving instance DecidableEq for Except

/-- The `Vector` class: varlena header `vl_len_` (int32), `dim` (int16),
`unused` (int16, reserved), and the element storage `data`
(`std::vector<float>`).  The element type is a parameter `α` (raw 32-bit
patterns for serialization, an abstract float carrier for arithmetic). -/
structure VectorM (α : Type) where
  vl_len_ : Int
  dim : Int
  unused : Int
  data : List α
deriving DecidableEq

/-- `VECTOR_MAX_DIM` from vector.hpp. -/
def VECTOR_MAX_DIM : Int := 16000

/-- `Vector::validate_dimension`: rejects `d < 1` and `d > VECTOR_MAX_DIM`
with the exact error messages of vector.cpp (the second message is the
result of the `std::to_string` interpolation with 16000). -/
def validate_dimension (d : Int) : Except VErr Unit :=
  if d < 1 then
    Except.error (VErr.invalidDimension ("vector must have at least 1 dimension"))
  else if d > VECTOR_MAX_DIM then
    Except.error (VErr.invalidDimension ("vector cannot have more than 16000 dimensions"))
  else
    Except.ok ()

/-- `Vector::Vector(int16 dimensions)`: member initializers set
`vl_len_ = 0`, `dim = dimensions`, `unused = 0`; the body validates the
dimension and then `data.resize(dimensions)`, which value-initializes
`dimensions` elements (float `0.0f`, whose 32-bit pattern is 0; the zero
element of the model is the parameter `z`). -/
def mkVector (z : α) (d : Int) : Except VErr (VectorM α) :=
  match validate_dimension d with
  | Except.error e => Except.error e
  | Except.ok _ => Except.ok ⟨0, d, 0, List.replicate d.toNat z⟩

/-- The default constructor `Vector()` : `vl_len_ = 0`, `dim = 0`,
`unused = 0`, empty `data`.  A moved-from `Vector` is in the same state
(the move constructor nulls `dim` and `vl_len_` and empties `data`). -/
def defaultVector (α : Type) : VectorM α := ⟨0, 0, 0, []⟩

/-- `Vector::check_compatibility`: throws the "different vector
dimensions ... and ..." error when the two `dim` fields differ. -/
def check_compatibility (a b : VectorM α) : Except VErr Unit :=
  if a.dim ≠ b.dim then
    Except.error (VErr.dimensionMismatch a.dim b.dim)
  else
    Except.ok ()

/-- Abstract interpretation of the IEEE-754 single-precision scalar
operations the C++ code uses: the literal `0.0f`, the arithmetic
operators and `std::sqrt`, and the boolean comparisons `<` and `==`.
All theorems about arithmetic hold for every interpretation. -/
structure FloatModel (α : Type) where
  zero : α
  add : α → α → α
  sub : α → α → α
  mul : α → α → α
  div : α → α → α
  sqrt : α → α
  flt : α → α → Bool
  beq : α → α → Bool

/-- `Vector::operator+`: `check_compatibility`, construct `Vector
result(dim)` (which re-validates the dimension and zero-fills), then the
loop `result.data[i] = data[i] + other.data[i]` for `i < data.size()`.
Under the class invariant `data.size() == dim` of both operands the loop
is exactly `zipWith`. -/
def vadd (F : FloatModel α) (a b : VectorM α) : Except VErr (VectorM α) :=
  match check_compatibility a b with
  | Except.error e => Except.error e
  | Except.ok _ =>
    match mkVector F.zero a.dim with
    | Except.error e => Except.error e
    | Except.ok r => Except.ok { r with data := List.zipWith F.add a.data b.data }

/-- `Vector::operator-`, structured exactly like `operator+`. -/
def vsub (F : FloatModel α) (a b : VectorM α) : Except VErr (VectorM α) :=
  match check_compatibility a b with
  | Except.error e => Except.error e
  | Except.ok _ =>
    match mkVector F.zero a.dim with
    | Except.error e => Except.error e
    | Except.ok r => Except.ok { r with data := List.zipWith F.sub a.data b.data }

/-- `Vector::operator*` (elementwise), structured exactly like `operator+`. -/
def vmul (F : FloatModel α) (a b : VectorM α) : Except VErr (VectorM α) :=
  match check_compatibility a b with
  | Except.error e => Except.error e
  | Except.ok _ =>
    match mkVector F.zero a.dim with
    | Except.error e => Except.error e
    | Except.ok r => Except.ok { r with data := List.zipWith F.mul a.data b.data }

/-- The accumulation loop of `Vector::dot_product`: `float sum = 0.0f;`
then left to right `sum += data[i] * other.data[i]`. -/
def dotVal (F : FloatModel α) (a b : VectorM α) : α :=
  List.foldl (fun s p => F.add s (F.mul p.1 p.2)) F.zero (a.data.zip b.data)

/-- `Vector::dot_product`: `check_compatibility`, then the accumulation
loop.  No result vector is constructed, so no dimension re-validation
happens here. -/
def dot_product (F : FloatModel α) (a b : VectorM α) : Except VErr α :=
  match check_compatibility a b with
  | Except.error e => Except.error e
  | Except.ok _ => Except.ok (dotVal F a b)

/-- `Vector::l2_norm`: `sqrt` of the left-to-right sum of squares. -/
def l2_norm (F : FloatModel α) (a : VectorM α) : α :=
  F.sqrt (List.foldl (fun s v => F.add s (F.mul v v)) F.zero a.data)

/-- `Vector::cosine_similarity`: computes `dot_product(other)` first
(which can only fail with a dimension mismatch), then the two norms,
returns the literal `0.0f` if either norm compares `== 0.0f`, else
`dot / (norm_a * norm_b)`. -/
def cosine_similarity (F : FloatModel α) (a b : VectorM α) : Except VErr α :=
  match dot_product F a b with
  | Except.error e => Except.error e
  | Except.ok dot =>
    let norm_a := l2_norm F a
    let norm_b := l2_norm F b
    if F.beq norm_a F.zero || F.beq norm_b F.zero then
      Except.ok F.zero
    else
      Except.ok (F.div dot (F.mul norm_a norm_b))

/-- `Vector::getValue` in vector.hpp is `return data[index];` — the
UNCHECKED `std::vector::operator[]`.  It never throws: an out-of-range
index is undefined behavior, modelled here as `none`.  (The private
`validate_index` helper below is never called by the source.) -/
def getValue (v : VectorM α) (i : Nat) : Option α :=
  v.data.get? i

/-- `Vector::setValue` in vector.hpp is `data[index] = value;` — the
unchecked write.  It never throws; an out-of-range index is undefined
behavior, modelled as leaving the value unchanged (`List.set` is the
identity out of range). -/
def setValue (v : VectorM α) (i : Nat) (x : α) : VectorM α :=
  { v with data := v.data.set i x }

/-- `Vector::validate_index`: throws "vector index out of range" when
`index >= size_t(dim)`.  Defined in vector.cpp but never called by any
member function (dead code); assumes `dim ≥ 0`, which every constructed
vector satisfies. -/
def validate_index (v : VectorM α) (i : Nat) : Except VErr Unit :=
  if v.dim.toNat ≤ i then Except.error VErr.indexOutOfRange else Except.ok ()

/-- A concrete interpretation of the scalar operations over `Int`, used
only to instantiate universally quantified theorems in witnesses. -/
def intModel : FloatModel Int where
  zero := 0
  add := fun x y => x + y
  sub := fun x y => x - y
  mul := fun x y => x * y
  div := fun x y => x / y
  sqrt := fun x => Int.sqrt x
  flt := fun x y => decide (x < y)
  beq := fun x y => decide (x = y)

/-- C2.  For every int16 dimension `d`, construction fails with the
`InvalidDimension` error exactly when `d < 1` or `d > 16000`; otherwise
it succeeds with `vl_len_ = 0`, `unused = 0`, `dim = d` and `d`
zero elements. -/
theorem C2_construction {α : Type} (z : α) (d : Int)
    (hlo : -32768 ≤ d) (hhi : d < 32768) :
    ((∃ msg, mkVector z d = Except.error (VErr.invalidDimension msg)) ↔
      (d < 1 ∨ d > 16000)) ∧
    (1 ≤ d → d ≤ 16000 →
      mkVector z d = Except.ok ⟨0, d, 0, List.replicate d.toNat z⟩) := by
  constructor
  · constructor
    · intro ⟨msg, hmsg⟩
      by_contra hcon
      push_neg at hcon
      simp only [mkVector, validate_dimension, VECTOR_MAX_DIM] at hmsg
      rw [if_neg (by omega), if_neg (by omega)] at hmsg
      exact absurd hmsg (by simp)
    · intro hd
      simp only [mkVector, validate_dimension, VECTOR_MAX_DIM]
      rcases hd with hd | hd
      · rw [if_pos hd]
        exact ⟨_, rfl⟩
      · rw [if_neg (by omega), if_pos (by omega)]
        exact ⟨_, rfl⟩
  · intro h1 h2
    simp only [mkVector, validate_dimension, VECTOR_MAX_DIM]
    rw [if_neg (by omega), if_neg (by omega)]

/-- Witness for C2 at `d = 5` and a generic zero element `(0 : Int)`. -/
theorem C2_construction_witness :
    ((∃ msg, mkVector (0 : Int) 5 = Except.error (VErr.invalidDimension msg)) ↔
      ((5 : Int) < 1 ∨ (5 : Int) > 16000)) ∧
    ((1 : Int) ≤ 5 → (5 : Int) ≤ 16000 →
      mkVector (0 : Int) 5 = Except.ok ⟨0, 5, 0, List.replicate (5 : Int).toNat 0⟩) :=
  C2_construction (0 : Int) 5 (by decide) (by decide)

/-- C3.  Evaluation of the element accessors at the failing input: for
the vector freshly constructed with dimension 3, `getValue 3` performs
the unchecked `data[3]` access (out of range, no `IndexOutOfRange`
failure is raised — modelled `none`) and `setValue 3` likewise raises
nothing; the never-called `validate_index` helper is the only place
that would produce `IndexOutOfRange`, and in-range access at 2
succeeds. -/
theorem C3_accessors_unchecked :
    mkVector (0 : Int) 3 = Except.ok ⟨0, 3, 0, [0, 0, 0]⟩ ∧
    getValue (⟨0, 3, 0, [0, 0, 0]⟩ : VectorM Int) 3 = none ∧
    setValue (⟨0, 3, 0, [0, 0, 0]⟩ : VectorM Int) 3 99 = ⟨0, 3, 0, [0, 0, 0]⟩ ∧
    getValue (⟨0, 3, 0, [0, 0, 0]⟩ : VectorM Int) 2 = some 0 ∧
    validate_index (⟨0, 3, 0, [0, 0, 0]⟩ : VectorM Int) 3 =
      Except.error VErr.indexOutOfRange := by
  refine ⟨?_, by decide, by decide, by decide, by decide⟩
  decide

/-- C10.  For any two vectors whose `dim` fields are both 0 (the
default-constructed and the moved-from state), the three elementwise
operations pass the compatibility check (0 = 0) but then fail with the
`InvalidDimension` error "vector must have at least 1 dimension",
raised while constructing the result vector — never with
`DimensionMismatch` and never successfully. -/
theorem C10_zero_dim_ops {α : Type} (F : FloatModel α) (a b : VectorM α)
    (ha : a.dim = 0) (hb : b.dim = 0) :
    vadd F a b =
      Except.error (VErr.invalidDimension ("vector must have at least 1 dimension")) ∧
    vsub F a b =
      Except.error (VErr.invalidDimension ("vector must have at least 1 dimension")) ∧
    vmul F a b =
      Except.error (VErr.invalidDimension ("vector must have at least 1 dimension")) := by
  have hcc : check_compatibility a b = Except.ok () := by
    simp [check_compatibility, ha, hb]
  have hmk : mkVector F.zero a.dim =
      (Except.error (VErr.invalidDimension ("vector must have at least 1 dimension")) :
        Except VErr (VectorM α)) := by
    simp [mkVector, validate_dimension, ha]
  exact ⟨by simp [vadd, hcc, hmk], by simp [vsub, hcc, hmk], by simp [vmul, hcc, hmk]⟩

/-- Witness for C10: the default-constructed (equivalently moved-from)
vectors over the `Int` interpretation. -/
theorem C10_zero_dim_ops_witness :
    vadd intModel (defaultVector Int) (defaultVector Int) =
      Except.error (VErr.invalidDimension ("vector must have at least 1 dimension")) ∧
    vsub intModel (defaultVector Int) (defaultVector Int) =
      Except.error (VErr.invalidDimension ("vector must have at least 1 dimension")) ∧
    vmul intModel (defaultVector Int) (defaultVector Int) =
      Except.error (VErr.invalidDimension ("vector must have at least 1 dimension")) :=
  C10_zero_dim_ops intModel (defaultVector Int) (defaultVector Int) rfl rfl

/-!
Binary serialization (vector.cpp, `Vector::serialize` / `Vector::deserialize`).

`serialize` writes, with `memcpy` and in the machine byte order
(little-endian), the `vl_len_` int32, the `dim` int16, the `unused`
int16, and then `dim * sizeof(float)` bytes of element storage.
`deserialize` reads the same fields back, constructs `Vector(dimensions)`
(which validates the dimension) and then `memcpy`s `dimensions * 4`
bytes into the element storage.  Bytes are modelled as `Nat` values
`< 256`, elements by their raw 32-bit patterns, and the signed fields in
two's complement.  The C++ `deserialize` receives only a raw pointer: it
has no length information and performs no bounds check, so reading a
buffer shorter than `8 + 4 * dim` bytes is undefined behavior; the model
makes such reads total by returning 0 for positions past the end of the
byte list (`List.getD`).
-/

/-- Little-endian bytes of a 16-bit value. -/
def encU16 (u : Nat) : List Nat := [u % 256, u / 256 % 256]

/-- Little-endian bytes of a 32-bit value. -/
def encU32 (u : Nat) : List Nat :=
  [u % 256, u / 256 % 256, u / 65536 % 256, u / 16777216 % 256]

/-- Little-endian image of an int16, two's complement. -/
def enc16 (n : Int) : List Nat := encU16 (n % 65536).toNat

/-- Little-endian image of an int32, two's complement. -/
def enc32 (n : Int) : List Nat := encU32 (n % 4294967296).toNat

/-- Recombine two little-endian bytes. -/
def decU16 (b0 b1 : Nat) : Nat := b0 + 256 * b1

/-- Recombine four little-endian bytes. -/
def decU32 (b0 b1 b2 b3 : Nat) : Nat := b0 + 256 * b1 + 65536 * b2 + 16777216 * b3

/-- Read an int16 from two little-endian bytes, two's complement. -/
def dec16 (b0 b1 : Nat) : Int :=
  if decU16 b0 b1 < 32768 then (decU16 b0 b1 : Int) else (decU16 b0 b1 : Int) - 65536

/-- Read an int32 from four little-endian bytes, two's complement. -/
def dec32 (b0 b1 b2 b3 : Nat) : Int :=
  if decU32 b0 b1 b2 b3 < 2147483648 then (decU32 b0 b1 b2 b3 : Int)
  else (decU32 b0 b1 b2 b3 : Int) - 4294967296

/-- `Vector::serialize`: header (`vl_len_`, `dim`, `unused`) followed by
the packed element patterns, `8 + 4 * dim` bytes in all. -/
def serialize (v : VectorM Nat) : List Nat :=
  enc32 v.vl_len_ ++ (enc16 v.dim ++ (enc16 v.unused ++ (v.data.map encU32).join))

/-- Byte `i` of the buffer; past-the-end positions read as 0 (in the C++
source such a read is out of bounds of the caller's allocation and
undefined behavior — there is no length check of any kind). -/
def byteAt (buf : List Nat) (i : Nat) : Nat := buf.getD i 0

/-- The four little-endian bytes of the element at byte offset `off`. -/
def readElem (buf : List Nat) (off : Nat) : Nat :=
  decU32 (byteAt buf off) (byteAt buf (off + 1)) (byteAt buf (off + 2))
    (byteAt buf (off + 3))

/-- `Vector::deserialize`: reads `vl_len_`, `dimensions`, `unused_val`
from the 8-byte header, constructs `Vector vec(dimensions)` — the only
validation that happens, throwing `InvalidDimension` for a dimension
outside `[1, 16000]` — then overwrites `vl_len_`, `unused` and the
element storage from the buffer.  No `TruncatedInput` check exists in
the source. -/
def deserialize (buf : List Nat) : Except VErr (VectorM Nat) :=
  let d := dec16 (byteAt buf 4) (byteAt buf 5)
  Except.map
    (fun v => { v with
      vl_len_ := dec32 (byteAt buf 0) (byteAt buf 1) (byteAt buf 2) (byteAt buf 3),
      unused := dec16 (byteAt buf 6) (byteAt buf 7),
      data := (List.range d.toNat).map (fun i => readElem buf (8 + 4 * i)) })
    (mkVector (0 : Nat) d)

theorem decU32_encU32 (u : Nat) (h : u < 4294967296) :
    decU32 ((encU32 u).getD 0 0) ((encU32 u).getD 1 0) ((encU32 u).getD 2 0)
      ((encU32 u).getD 3 0) = u := by
  show u % 256 + 256 * (u / 256 % 256) + 65536 * (u / 65536 % 256) +
      16777216 * (u / 16777216 % 256) = u
  omega

theorem dec16_enc16 (n : Int) (h1 : -32768 ≤ n) (h2 : n < 32768) :
    dec16 ((enc16 n).getD 0 0) ((enc16 n).getD 1 0) = n := by
  show dec16 ((n % 65536).toNat % 256) ((n % 65536).toNat / 256 % 256) = n
  simp only [dec16, decU16]
  split <;> omega

theorem dec32_enc32 (n : Int) (h1 : -2147483648 ≤ n) (h2 : n < 2147483648) :
    dec32 ((enc32 n).getD 0 0) ((enc32 n).getD 1 0) ((enc32 n).getD 2 0)
      ((enc32 n).getD 3 0) = n := by
  show dec32 ((n % 4294967296).toNat % 256) ((n % 4294967296).toNat / 256 % 256)
      ((n % 4294967296).toNat / 65536 % 256) ((n % 4294967296).toNat / 16777216 % 256) = n
  simp only [dec32, decU32]
  split <;> omega

theorem join_encU32_getD :
    ∀ (l : List Nat) (i k : Nat), i < l.length → k < 4 →
      ((l.map encU32).join).getD (4 * i + k) 0 = (encU32 (l.getD i 0)).getD k 0 := by
  intro l
  induction l with
  | nil => intro i k hi _; simp at hi
  | cons x xs ih =>
    intro i k hi hk
    cases i with
    | zero =>
      simp only [List.map_cons, List.join_cons, Nat.mul_zero, Nat.zero_add,
        List.getD_cons_zero]
      rw [List.getD_append _ _ _ _ (by simp [encU32]; omega)]
    | succ j =>
      simp only [List.map_cons, List.join_cons, List.getD_cons_succ]
      rw [List.getD_append_right _ _ _ _ (by simp [encU32]; omega)]
      have harith : 4 * (j + 1) + k - (encU32 x).length = 4 * j + k := by
        simp [encU32]; omega
      rw [harith]
      exact ih j k (by simpa using hi) hk

theorem byteAt_serialize_tail (v : VectorM Nat) (m : Nat) :
    byteAt (serialize v) (m + 8) = ((v.data.map encU32).join).getD m 0 := rfl

theorem readElem_serialize (v : VectorM Nat) (i : Nat) (hi : i < v.data.length)
    (hel : v.data.getD i 0 < 4294967296) :
    readElem (serialize v) (8 + 4 * i) = v.data.getD i 0 := by
  have h3 : 8 + 4 * i + 3 = (4 * i + 3) + 8 := by omega
  have h2 : 8 + 4 * i + 2 = (4 * i + 2) + 8 := by omega
  have h1 : 8 + 4 * i + 1 = (4 * i + 1) + 8 := by omega
  have h0 : 8 + 4 * i = (4 * i + 0) + 8 := by omega
  simp only [readElem]
  rw [h3, h2, h1, h0]
  rw [byteAt_serialize_tail, byteAt_serialize_tail, byteAt_serialize_tail,
    byteAt_serialize_tail]
  rw [join_encU32_getD _ i 3 hi (by omega), join_encU32_getD _ i 2 hi (by omega),
    join_encU32_getD _ i 1 hi (by omega)]
  rw [show (4 : Nat) * i = 4 * i + 0 from rfl, join_encU32_getD _ i 0 hi (by omega)]
  exact decU32_encU32 _ hel

/-- C1.  Round-trip law: for every vector `v` whose dimension lies in
`[1, 16000]`, whose field values are in the ranges of their C++ types
(int32 `vl_len_`, int16 `unused`, 32-bit element patterns) and whose
element count matches its dimension, `deserialize (serialize v)`
succeeds and reproduces `v` field for field — `vl_len_` and `unused`
included, also when they are nonzero. -/
theorem C1_round_trip (v : VectorM Nat)
    (hd1 : 1 ≤ v.dim) (hd2 : v.dim ≤ 16000)
    (hlen : v.data.length = v.dim.toNat)
    (hvl1 : -2147483648 ≤ v.vl_len_) (hvl2 : v.vl_len_ < 2147483648)
    (hun1 : -32768 ≤ v.unused) (hun2 : v.unused < 32768)
    (hel : ∀ x ∈ v.data, x < 4294967296) :
    deserialize (serialize v) = Except.ok v := by
  obtain ⟨vl, dim, un, data⟩ := v
  simp only at hd1 hd2 hlen hvl1 hvl2 hun1 hun2 hel
  have hd : dec16 (byteAt (serialize ⟨vl, dim, un, data⟩) 4)
      (byteAt (serialize ⟨vl, dim, un, data⟩) 5) = dim := by
    have e4 : byteAt (serialize ⟨vl, dim, un, data⟩) 4 = (enc16 dim).getD 0 0 := rfl
    have e5 : byteAt (serialize ⟨vl, dim, un, data⟩) 5 = (enc16 dim).getD 1 0 := rfl
    rw [e4, e5]
    exact dec16_enc16 dim (by omega) (by omega)
  have hvl : dec32 (byteAt (serialize ⟨vl, dim, un, data⟩) 0)
      (byteAt (serialize ⟨vl, dim, un, data⟩) 1)
      (byteAt (serialize ⟨vl, dim, un, data⟩) 2)
      (byteAt (serialize ⟨vl, dim, un, data⟩) 3) = vl := by
    have e0 : byteAt (serialize ⟨vl, dim, un, data⟩) 0 = (enc32 vl).getD 0 0 := rfl
    have e1 : byteAt (serialize ⟨vl, dim, un, data⟩) 1 = (enc32 vl).getD 1 0 := rfl
    have e2 : byteAt (serialize ⟨vl, dim, un, data⟩) 2 = (enc32 vl).getD 2 0 := rfl
    have e3 : byteAt (serialize ⟨vl, dim, un, data⟩) 3 = (enc32 vl).getD 3 0 := rfl
    rw [e0, e1, e2, e3]
    exact dec32_enc32 vl hvl1 hvl2
  have hun : dec16 (byteAt (serialize ⟨vl, dim, un, data⟩) 6)
      (byteAt (serialize ⟨vl, dim, un, data⟩) 7) = un := by
    have e6 : byteAt (serialize ⟨vl, dim, un, data⟩) 6 = (enc16 un).getD 0 0 := rfl
    have e7 : byteAt (serialize ⟨vl, dim, un, data⟩) 7 = (enc16 un).getD 1 0 := rfl
    rw [e6, e7]
    exact dec16_enc16 un hun1 hun2
  have hmk : mkVector (0 : Nat) dim =
      Except.ok ⟨0, dim, 0, List.replicate dim.toNat 0⟩ := by
    simp only [mkVector, validate_dimension, VECTOR_MAX_DIM]
    rw [if_neg (by omega), if_neg (by omega)]
  have hdata : (List.range dim.toNat).map
      (fun i => readElem (serialize ⟨vl, dim, un, data⟩) (8 + 4 * i)) = data := by
    apply List.ext_getElem
    · simp [hlen]
    · intro n hn1 hn2
      simp only [List.getElem_map, List.getElem_range]
      have hb : n < data.length := hn2
      have hmem : data.getD n 0 ∈ data := by
        rw [List.getD_eq_get _ _ hb]
        exact List.get_mem data n hb
      rw [readElem_serialize ⟨vl, dim, un, data⟩ n hb (hel _ hmem),
        List.getD_eq_get _ _ hb]
      exact List.get_eq_getElem data ⟨n, hb⟩
  simp only [deserialize]
  rw [hd, hmk]
  simp only [Except.map]
  rw [hvl, hun, hdata]

/-- Witness for C1: a 2-dimensional vector with nonzero `vl_len_` (7)
and nonzero `unused` (3), one element being the all-ones 32-bit
pattern. -/
theorem C1_round_trip_witness :
    deserialize (serialize ⟨7, 2, 3, [1, 4294967295]⟩) =
      Except.ok (⟨7, 2, 3, [1, 4294967295]⟩ : VectorM Nat) :=
  C1_round_trip ⟨7, 2, 3, [1, 4294967295]⟩ (by decide) (by decide) (by decide)
    (by decide) (by decide) (by decide) (by decide) (by decide)

/-- C8 (amended).  `deserialize` fails with the `InvalidDimension` error
exactly when the dimension field decoded from the header lies outside
`[1, 16000]` (malformed dimensions are never silently coerced), and it
NEVER fails with `TruncatedInput`: the source receives a bare pointer,
keeps no length, and performs no bounds check, so a buffer shorter than
`8 + 4 * dim` bytes is read out of bounds (undefined behavior) instead
of being rejected. -/
theorem C8_deserialize_validation (buf : List Nat) :
    ((∃ msg, deserialize buf = Except.error (VErr.invalidDimension msg)) ↔
      (dec16 (byteAt buf 4) (byteAt buf 5) < 1 ∨
        dec16 (byteAt buf 4) (byteAt buf 5) > 16000)) ∧
    deserialize buf ≠ Except.error VErr.truncatedInput := by
  simp only [deserialize, mkVector, validate_dimension, VECTOR_MAX_DIM]
  by_cases h1 : dec16 (byteAt buf 4) (byteAt buf 5) < 1
  · rw [if_pos h1]
    simp only [Except.map]
    exact ⟨⟨fun _ => Or.inl h1, fun _ => ⟨_, rfl⟩⟩, by simp⟩
  · rw [if_neg h1]
    by_cases h2 : dec16 (byteAt buf 4) (byteAt buf 5) > 16000
    · rw [if_pos h2]
      simp only [Except.map]
      exact ⟨⟨fun _ => Or.inr h2, fun _ => ⟨_, rfl⟩⟩, by simp⟩
    · rw [if_neg h2]
      simp only [Except.map]
      constructor
      · constructor
        · intro ⟨msg, hmsg⟩
          exact absurd hmsg (by simp)
        · intro h
          omega
      · simp

/-- Witness for C8 at the empty buffer: every header byte reads as 0, so
the decoded dimension is 0 and deserialization fails with
`InvalidDimension`, not `TruncatedInput`. -/
theorem C8_deserialize_validation_witness :
    ((∃ msg, deserialize [] = Except.error (VErr.invalidDimension msg)) ↔
      (dec16 (byteAt [] 4) (byteAt [] 5) < 1 ∨
        dec16 (byteAt [] 4) (byteAt [] 5) > 16000)) ∧
    deserialize [] ≠ Except.error VErr.truncatedInput :=
  C8_deserialize_validation []

/-- Counterexample to C8 as stated: a 10-byte buffer whose header
declares dimension 2, which would need `8 + 4 * 2 = 16` bytes.  The
claim demands a `TruncatedInput` failure; the code performs no length
check and does not produce that error (it reads past the end of the
buffer — undefined behavior — and returns a vector). -/
theorem C8_truncation_cex :
    ([0, 0, 0, 0, 2, 0, 0, 0, 1, 0] : List Nat).length < 8 + 4 * 2 ∧
    dec16 (byteAt [0, 0, 0, 0, 2, 0, 0, 0, 1, 0] 4)
      (byteAt [0, 0, 0, 0, 2, 0, 0, 0, 1, 0] 5) = 2 ∧
    deserialize [0, 0, 0, 0, 2, 0, 0, 0, 1, 0] ≠
      Except.error VErr.truncatedInput := by
  refine ⟨by decide, by decide, ?_⟩
  decide

/-!
Ordering (vector.cpp, `Vector::operator<`).

The loop walks `i` from 0 to `min(dim, other.dim) - 1`: it returns true
at the first index with `data[i] < other.data[i]`, false at the first
index with `data[i] > other.data[i]`, and after a full tie returns
`dim < other.dim`.  The elementwise comparison is a parameter
`flt : α → α → Bool`; the C++ `>` on IEEE floats is exactly the swapped
`<` (both false on unordered operands), so `data[i] > other.data[i]`
is modelled as `flt y x`.  Under the class invariant
`data.size() == dim` the index loop is the simultaneous recursion on
the two lists below.
-/

/-- The comparison loop of `Vector::operator<`: `some true` / `some
false` when an index decides, `none` when the first `min` elements all
tie. -/
def vltLoop (flt : α → α → Bool) : List α → List α → Option Bool
  | x :: xs, y :: ys =>
    if flt x y then some true
    else if flt y x then some false
    else vltLoop flt xs ys
  | _, _ => none

/-- `Vector::operator<`: the loop result, with `dim < other.dim` as the
final tie-break. -/
def vlt (flt : α → α → Bool) (a b : VectorM α) : Bool :=
  (vltLoop flt a.data b.data).getD (decide (a.dim < b.dim))

/-- The elementwise `<` for a totally ordered element type (IEEE `<`
restricted to non-NaN floats behaves like this). -/
def fltOrd {α : Type} [LinearOrder α] : α → α → Bool := fun x y => decide (x < y)

/-- IEEE `<` on a carrier with a NaN: `none` models NaN, and every
comparison against it is false. -/
def fltNaN : Option Int → Option Int → Bool
  | some x, some y => decide (x < y)
  | _, _ => false

/-- The representation invariant the C++ class maintains: a nonnegative
dimension and exactly `dim` stored elements. -/
def WF (v : VectorM α) : Prop := 0 ≤ v.dim ∧ v.data.length = v.dim.toNat

instance (v : VectorM α) : Decidable (WF v) := by
  unfold WF; infer_instance

theorem vltLoop_self_none (flt : α → α → Bool) (hirr : ∀ x, flt x x = false) :
    ∀ l : List α, vltLoop flt l l = none := by
  intro l
  induction l with
  | nil => rfl
  | cons x xs ih =>
    rw [show vltLoop flt (x :: xs) (x :: xs) =
      if flt x x then some true else if flt x x then some false else vltLoop flt xs xs
      from rfl, hirr x]
    simpa using ih

theorem vltLoop_lex {α : Type} [LinearOrder α] :
    ∀ l1 l2 : List α,
      ((vltLoop fltOrd l1 l2).getD (decide (l1.length < l2.length)) = true ↔
        List.Lex (· < ·) l1 l2) := by
  intro l1
  induction l1 with
  | nil =>
    intro l2
    cases l2 with
    | nil =>
      exact iff_of_false (by simp [vltLoop]) (List.Lex.not_nil_right _ _)
    | cons y ys =>
      exact iff_of_true (by simp [vltLoop]) List.Lex.nil
  | cons x xs ih =>
    intro l2
    cases l2 with
    | nil =>
      exact iff_of_false (by simp [vltLoop]) (List.Lex.not_nil_right _ _)
    | cons y ys =>
      rcases lt_trichotomy x y with hxy | hxy | hxy
      · exact iff_of_true (by simp [vltLoop, fltOrd, hxy]) (List.Lex.rel hxy)
      · subst hxy
        have hloop : vltLoop fltOrd (x :: xs) (x :: ys) = vltLoop fltOrd xs ys := by
          simp [vltLoop, fltOrd]
        have hdec : (decide ((x :: xs).length < (x :: ys).length)) =
            decide (xs.length < ys.length) :=
          decide_eq_decide.mpr (by simp)
        rw [hloop, hdec, ih ys]
        exact (List.Lex.cons_iff).symm
      · have hloop : vltLoop fltOrd (x :: xs) (y :: ys) = some false := by
          rw [show vltLoop fltOrd (x :: xs) (y :: ys) =
            if fltOrd x y then some true
            else if fltOrd y x then some false else vltLoop fltOrd xs ys from rfl]
          rw [show fltOrd x y = false by simp [fltOrd]; exact hxy.le,
            show fltOrd y x = true by simp [fltOrd, hxy]]
          rfl
        apply iff_of_false
        · rw [hloop]; simp
        · intro h
          cases h with
          | cons h' => exact absurd hxy (lt_irrefl x)
          | rel h' => exact absurd h' (lt_asymm hxy)

theorem vltLoop_first_lt {α : Type} [LinearOrder α] :
    ∀ (i : Nat) (l1 l2 : List α) (x y : α),
      l1.take i = l2.take i → l1[i]? = some x → l2[i]? = some y → x < y →
      vltLoop fltOrd l1 l2 = some true := by
  intro i
  induction i with
  | zero =>
    intro l1 l2 x y _ hx hy hxy
    cases l1 with
    | nil => simp at hx
    | cons a t1 =>
      cases l2 with
      | nil => simp at hy
      | cons b t2 =>
        simp only [List.getElem?_cons_zero, Option.some_inj] at hx hy
        subst hx; subst hy
        simp [vltLoop, fltOrd, hxy]
  | succ j ih =>
    intro l1 l2 x y htake hx hy hxy
    cases l1 with
    | nil => simp at hx
    | cons a t1 =>
      cases l2 with
      | nil => simp at hy
      | cons b t2 =>
        simp only [List.take_succ_cons, List.cons.injEq] at htake
        obtain ⟨hab, htail⟩ := htake
        subst hab
        simp only [List.getElem?_cons_succ] at hx hy
        rw [show vltLoop fltOrd (a :: t1) (a :: t2) =
          if fltOrd a a then some true
          else if fltOrd a a then some false else vltLoop fltOrd t1 t2 from rfl]
        rw [show fltOrd a a = false by simp [fltOrd]]
        simpa using ih t1 t2 x y htail hx hy hxy

theorem vltLoop_swap {α : Type} [LinearOrder α] :
    ∀ l1 l2 : List α, vltLoop fltOrd l2 l1 = (vltLoop fltOrd l1 l2).map Bool.not := by
  intro l1
  induction l1 with
  | nil =>
    intro l2
    cases l2 with
    | nil => rfl
    | cons y ys => rfl
  | cons x xs ih =>
    intro l2
    cases l2 with
    | nil => rfl
    | cons y ys =>
      rcases lt_trichotomy x y with hxy | hxy | hxy
      · rw [show vltLoop fltOrd (y :: ys) (x :: xs) =
          if fltOrd y x then some true
          else if fltOrd x y then some false else vltLoop fltOrd ys xs from rfl]
        rw [show fltOrd y x = false by simp [fltOrd]; exact hxy.le,
          show fltOrd x y = true by simp [fltOrd, hxy]]
        rw [show vltLoop fltOrd (x :: xs) (y :: ys) =
          if fltOrd x y then some true
          else if fltOrd y x then some false else vltLoop fltOrd xs ys from rfl]
        rw [show fltOrd x y = true by simp [fltOrd, hxy]]
        rfl
      · subst hxy
        rw [show vltLoop fltOrd (x :: ys) (x :: xs) =
          if fltOrd x x then some true
          else if fltOrd x x then some false else vltLoop fltOrd ys xs from rfl]
        rw [show vltLoop fltOrd (x :: xs) (x :: ys) =
          if fltOrd x x then some true
          else if fltOrd x x then some false else vltLoop fltOrd xs ys from rfl]
        rw [show fltOrd x x = false by simp [fltOrd]]
        simpa using ih ys
      · rw [show vltLoop fltOrd (y :: ys) (x :: xs) =
          if fltOrd y x then some true
          else if fltOrd x y then some false else vltLoop fltOrd ys xs from rfl]
        rw [show fltOrd y x = true by simp [fltOrd, hxy]]
        rw [show vltLoop fltOrd (x :: xs) (y :: ys) =
          if fltOrd x y then some true
          else if fltOrd y x then some false else vltLoop fltOrd xs ys from rfl]
        rw [show fltOrd x y = false by simp [fltOrd]; exact hxy.le,
          show fltOrd y x = true by simp [fltOrd, hxy]]
        rfl

theorem vlt_iff_lex {α : Type} [LinearOrder α] (a b : VectorM α)
    (ha : WF a) (hb : WF b) :
    vlt fltOrd a b = true ↔ List.Lex (· < ·) a.data b.data := by
  obtain ⟨ha1, ha2⟩ := ha
  obtain ⟨hb1, hb2⟩ := hb
  have hda : a.dim = (a.data.length : Int) := by omega
  have hdb : b.dim = (b.data.length : Int) := by omega
  unfold vlt
  rw [hda, hdb,
    show decide ((a.data.length : Int) < (b.data.length : Int)) =
      decide (a.data.length < b.data.length) from decide_eq_decide.mpr (by omega)]
  exact vltLoop_lex a.data b.data

/-- C6.  `operator<` is lexicographic over the first
`min(dim, other.dim)` elements: when every compared element ties, the
smaller dimension sorts first; when index `i` is the first place the
elements differ, that place decides (`a[i] < b[i]` gives `a < b`,
`a[i] > b[i]` gives `¬(a < b)`); in particular `[1,2] < [2,1]` and
`[1,2] < [1,2,0]`. -/
theorem C6_compare_lexicographic :
    (∀ {α : Type} [LinearOrder α] (a b : VectorM α),
      a.data.length = a.dim.toNat → b.data.length = b.dim.toNat →
      a.data.take (min a.dim.toNat b.dim.toNat) =
        b.data.take (min a.dim.toNat b.dim.toNat) →
      vlt fltOrd a b = decide (a.dim < b.dim)) ∧
    (∀ {α : Type} [LinearOrder α] (a b : VectorM α) (i : Nat) (x y : α),
      a.data.take i = b.data.take i → a.data[i]? = some x → b.data[i]? = some y →
      (x < y → vlt fltOrd a b = true) ∧ (y < x → vlt fltOrd a b = false)) ∧
    vlt fltOrd (⟨0, 2, 0, [(1 : Int), 2]⟩ : VectorM Int) ⟨0, 2, 0, [2, 1]⟩ = true ∧
    vlt fltOrd (⟨0, 2, 0, [(1 : Int), 2]⟩ : VectorM Int) ⟨0, 3, 0, [1, 2, 0]⟩ = true := by
  refine ⟨?_, ?_, by decide, by decide⟩
  · intro α _ a b hla hlb htake
    have hmin : min a.dim.toNat b.dim.toNat = min a.data.length b.data.length := by
      rw [hla, hlb]
    rw [hmin] at htake
    have hnone : vltLoop fltOrd a.data b.data = none := by
      clear hla hlb hmin
      generalize a.data = l1 at htake ⊢
      generalize b.data = l2 at htake ⊢
      induction l1 generalizing l2 with
      | nil => rfl
      | cons x xs ih =>
        cases l2 with
        | nil => rfl
        | cons y ys =>
          simp only [List.length_cons] at htake
          rw [show min (xs.length + 1) (ys.length + 1) = min xs.length ys.length + 1
            from by omega] at htake
          simp only [List.take_succ_cons, List.cons.injEq] at htake
          obtain ⟨hxy, htail⟩ := htake
          subst hxy
          rw [show vltLoop fltOrd (x :: xs) (x :: ys) =
            if fltOrd x x then some true
            else if fltOrd x x then some false else vltLoop fltOrd xs ys from rfl]
          rw [show fltOrd x x = false by simp [fltOrd]]
          simpa using ih ys htail
    unfold vlt
    rw [hnone]
    rfl
  · intro α _ a b i x y htake hx hy
    constructor
    · intro hxy
      unfold vlt
      rw [vltLoop_first_lt i a.data b.data x y htake hx hy hxy]
      rfl
    · intro hyx
      unfold vlt
      have hswap : vltLoop fltOrd a.data b.data = some false := by
        rw [vltLoop_swap]
        rw [vltLoop_first_lt i b.data a.data y x htake.symm hy hx hyx]
        rfl
      rw [hswap]
      rfl

/-- Witness for C6: the tie case (equal 2-element prefixes, dimensions
2 and 3), a deciding smaller element at index 1, and a deciding larger
element at index 1. -/
theorem C6_compare_lexicographic_witness :
    vlt fltOrd (⟨0, 2, 0, [(5 : Int), 7]⟩ : VectorM Int) ⟨0, 3, 0, [5, 7, 9]⟩ =
      decide ((2 : Int) < 3) ∧
    vlt fltOrd (⟨0, 2, 0, [(5 : Int), 1]⟩ : VectorM Int) ⟨0, 2, 0, [5, 4]⟩ = true ∧
    vlt fltOrd (⟨0, 2, 0, [(5 : Int), 9]⟩ : VectorM Int) ⟨0, 2, 0, [5, 4]⟩ = false :=
  ⟨C6_compare_lexicographic.1 ⟨0, 2, 0, [(5 : Int), 7]⟩ ⟨0, 3, 0, [5, 7, 9]⟩
      (by decide) (by decide) (by decide),
   (C6_compare_lexicographic.2.1 ⟨0, 2, 0, [(5 : Int), 1]⟩ ⟨0, 2, 0, [5, 4]⟩ 1 1 4
      (by decide) (by decide) (by decide)).1 (by decide),
   (C6_compare_lexicographic.2.1 ⟨0, 2, 0, [(5 : Int), 9]⟩ ⟨0, 2, 0, [5, 4]⟩ 1 9 4
      (by decide) (by decide) (by decide)).2 (by decide)⟩

/-- Counterexample to C7 as stated: with a NaN element (modelled as
`none`, every IEEE comparison against it false) `operator<` is not even
transitive, let alone a strict weak ordering: for
`a = [1, 0]`, `b = [NaN, 1]`, `c = [0, 2]` (all of dimension 2) the code
gives `a < b` and `b < c` but not `a < c`. -/
theorem C7_nan_cex :
    vlt fltNaN ⟨0, 2, 0, [some 1, some 0]⟩ ⟨0, 2, 0, [none, some 1]⟩ = true ∧
    vlt fltNaN ⟨0, 2, 0, [none, some 1]⟩ ⟨0, 2, 0, [some 0, some 2]⟩ = true ∧
    vlt fltNaN ⟨0, 2, 0, [some 1, some 0]⟩ ⟨0, 2, 0, [some 0, some 2]⟩ = false := by
  refine ⟨by decide, by decide, ?_⟩
  decide

/-- C7 (amended).  `operator<` is irreflexive for every elementwise
comparison that is irreflexive — IEEE `<` with NaN included — but it is
a strict weak ordering (transitive with transitive incomparability)
only on vectors whose elements are totally ordered, i.e. NaN-free; with
NaN elements transitivity fails (see the counterexample). -/
theorem C7_strict_weak_order :
    (∀ {α : Type} (flt : α → α → Bool), (∀ x, flt x x = false) →
      ∀ a : VectorM α, vlt flt a a = false) ∧
    (∀ {α : Type} [LinearOrder α] (a b c : VectorM α), WF a → WF b → WF c →
      vlt fltOrd a b = true → vlt fltOrd b c = true → vlt fltOrd a c = true) ∧
    (∀ {α : Type} [LinearOrder α] (a b c : VectorM α), WF a → WF b → WF c →
      ¬(vlt fltOrd a b = true ∨ vlt fltOrd b a = true) →
      ¬(vlt fltOrd b c = true ∨ vlt fltOrd c b = true) →
      ¬(vlt fltOrd a c = true ∨ vlt fltOrd c a = true)) := by
  refine ⟨?_, ?_, ?_⟩
  · intro α flt hirr a
    unfold vlt
    rw [vltLoop_self_none flt hirr]
    simp
  · intro α _ a b c ha hb hc hab hbc
    rw [vlt_iff_lex a b ha hb] at hab
    rw [vlt_iff_lex b c hb hc] at hbc
    rw [vlt_iff_lex a c ha hc]
    exact IsTrans.trans _ _ _ hab hbc
  · intro α _ a b c ha hb hc hab hbc
    have hab1 : ¬List.Lex (· < ·) a.data b.data :=
      fun h => hab (Or.inl ((vlt_iff_lex a b ha hb).mpr h))
    have hab2 : ¬List.Lex (· < ·) b.data a.data :=
      fun h => hab (Or.inr ((vlt_iff_lex b a hb ha).mpr h))
    have hbc1 : ¬List.Lex (· < ·) b.data c.data :=
      fun h => hbc (Or.inl ((vlt_iff_lex b c hb hc).mpr h))
    have hbc2 : ¬List.Lex (· < ·) c.data b.data :=
      fun h => hbc (Or.inr ((vlt_iff_lex c b hc hb).mpr h))
    have heq1 : a.data = b.data := by
      rcases @trichotomous_of (List α) (List.Lex (· < ·)) _ a.data b.data with h | h | h
      · exact absurd h hab1
      · exact h
      · exact absurd h hab2
    have heq2 : b.data = c.data := by
      rcases @trichotomous_of (List α) (List.Lex (· < ·)) _ b.data c.data with h | h | h
      · exact absurd h hbc1
      · exact h
      · exact absurd h hbc2
    intro hor
    rcases hor with h | h
    · have := (vlt_iff_lex a c ha hc).mp h
      rw [heq1, heq2] at this
      exact absurd this (@irrefl_of (List α) (List.Lex (· < ·)) _ c.data)
    · have := (vlt_iff_lex c a hc ha).mp h
      rw [heq1, heq2] at this
      exact absurd this (@irrefl_of (List α) (List.Lex (· < ·)) _ c.data)

/-- Witness for C7: irreflexivity at a vector holding a NaN,
transitivity across dimensions 1, 2, 1, and incomparability
transitivity for three equal-element vectors with different
`vl_len_`. -/
theorem C7_strict_weak_order_witness :
    vlt fltNaN (⟨0, 1, 0, [none]⟩ : VectorM (Option Int)) ⟨0, 1, 0, [none]⟩ = false ∧
    vlt fltOrd (⟨0, 1, 0, [(1 : Int)]⟩ : VectorM Int) ⟨0, 1, 0, [2]⟩ = true ∧
    ¬(vlt fltOrd (⟨5, 2, 0, [(1 : Int), 2]⟩ : VectorM Int) ⟨9, 2, 0, [1, 2]⟩ = true ∨
      vlt fltOrd (⟨9, 2, 0, [(1 : Int), 2]⟩ : VectorM Int) ⟨5, 2, 0, [1, 2]⟩ = true) :=
  ⟨C7_strict_weak_order.1 fltNaN (fun x => by cases x <;> simp [fltNaN])
      ⟨0, 1, 0, [none]⟩,
   C7_strict_weak_order.2.1 ⟨0, 1, 0, [(1 : Int)]⟩ ⟨0, 2, 0, [1, 5]⟩ ⟨0, 1, 0, [2]⟩
      (by decide) (by decide) (by decide) (by decide) (by decide),
   C7_strict_weak_order.2.2 ⟨5, 2, 0, [(1 : Int), 2]⟩ ⟨0, 2, 0, [1, 2]⟩
      ⟨9, 2, 0, [1, 2]⟩ (by decide) (by decide) (by decide) (by decide) (by decide)⟩

/-- C4.  The binary operations `+`, `-`, `*` (elementwise) and
`dot_product` fail with the `DimensionMismatch` error (carrying the two
dimensions) exactly when the dimensions differ.  With equal dimensions
`dot_product` returns the left-to-right accumulated sum of elementwise
products, and — provided the shared dimension is a valid one, as it is
for every constructed vector — the elementwise operations return a
vector of the same dimension whose i-th element is the scalar
operation applied to the operands' i-th elements, for any
interpretation `F` of IEEE-754 single-precision arithmetic. -/
theorem C4_elementwise_ops {α : Type} (F : FloatModel α) (a b : VectorM α) :
    (a.dim ≠ b.dim →
      vadd F a b = Except.error (VErr.dimensionMismatch a.dim b.dim) ∧
      vsub F a b = Except.error (VErr.dimensionMismatch a.dim b.dim) ∧
      vmul F a b = Except.error (VErr.dimensionMismatch a.dim b.dim) ∧
      dot_product F a b = Except.error (VErr.dimensionMismatch a.dim b.dim)) ∧
    (a.dim = b.dim → dot_product F a b = Except.ok (dotVal F a b)) ∧
    (a.dim = b.dim → 1 ≤ a.dim → a.dim ≤ 16000 →
      vadd F a b = Except.ok ⟨0, a.dim, 0, List.zipWith F.add a.data b.data⟩ ∧
      vsub F a b = Except.ok ⟨0, a.dim, 0, List.zipWith F.sub a.data b.data⟩ ∧
      vmul F a b = Except.ok ⟨0, a.dim, 0, List.zipWith F.mul a.data b.data⟩) := by
  refine ⟨?_, ?_, ?_⟩
  · intro h
    have hcc : check_compatibility a b =
        Except.error (VErr.dimensionMismatch a.dim b.dim) := by
      simp [check_compatibility, h]
    exact ⟨by simp [vadd, hcc], by simp [vsub, hcc], by simp [vmul, hcc],
      by simp [dot_product, hcc]⟩
  · intro h
    have hcc : check_compatibility a b = Except.ok () := by
      simp [check_compatibility, h]
    simp [dot_product, hcc]
  · intro h h1 h2
    have hcc : check_compatibility a b = Except.ok () := by
      simp [check_compatibility, h]
    have hmk : mkVector F.zero a.dim =
        Except.ok ⟨0, a.dim, 0, List.replicate a.dim.toNat F.zero⟩ := by
      simp only [mkVector, validate_dimension, VECTOR_MAX_DIM]
      rw [if_neg (by omega), if_neg (by omega)]
    exact ⟨by simp [vadd, hcc, hmk], by simp [vsub, hcc, hmk],
      by simp [vmul, hcc, hmk]⟩

/-- Witness for C4 over the `Int` interpretation: `[1,2]` and `[3,4]`
give `[4,6]`, `[-2,-2]`, `[3,8]` and dot product 11; against the
3-dimensional `[3,4,5]` every operation reports the mismatch of 2
and 3. -/
theorem C4_elementwise_ops_witness :
    (vadd intModel ⟨0, 2, 0, [1, 2]⟩ ⟨0, 2, 0, [3, 4]⟩ =
        Except.ok ⟨0, 2, 0, [4, 6]⟩ ∧
      vsub intModel ⟨0, 2, 0, [1, 2]⟩ ⟨0, 2, 0, [3, 4]⟩ =
        Except.ok ⟨0, 2, 0, [-2, -2]⟩ ∧
      vmul intModel ⟨0, 2, 0, [1, 2]⟩ ⟨0, 2, 0, [3, 4]⟩ =
        Except.ok ⟨0, 2, 0, [3, 8]⟩) ∧
    dot_product intModel ⟨0, 2, 0, [1, 2]⟩ ⟨0, 2, 0, [3, 4]⟩ = Except.ok 11 ∧
    vadd intModel ⟨0, 2, 0, [1, 2]⟩ ⟨0, 3, 0, [3, 4, 5]⟩ =
      Except.error (VErr.dimensionMismatch 2 3) :=
  ⟨(C4_elementwise_ops intModel ⟨0, 2, 0, [1, 2]⟩ ⟨0, 2, 0, [3, 4]⟩).2.2 rfl
      (by decide) (by decide),
   (C4_elementwise_ops intModel ⟨0, 2, 0, [1, 2]⟩ ⟨0, 2, 0, [3, 4]⟩).2.1 rfl,
   ((C4_elementwise_ops intModel ⟨0, 2, 0, [1, 2]⟩ ⟨0, 3, 0, [3, 4, 5]⟩).1
      (by decide)).1⟩

/-- C5.  For vectors of equal dimension `cosine_similarity` always
succeeds; it returns exactly the zero literal whenever either `l2_norm`
compares equal to `0.0f` (so a zero vector yields 0, never NaN and
never a division by zero), and otherwise returns the dot product
divided by the product of the two norms — for any interpretation `F` of
the scalar operations. -/
theorem C5_cosine_zero_policy {α : Type} (F : FloatModel α) (a b : VectorM α)
    (h : a.dim = b.dim) :
    cosine_similarity F a b =
      Except.ok (if F.beq (l2_norm F a) F.zero || F.beq (l2_norm F b) F.zero
        then F.zero
        else F.div (dotVal F a b) (F.mul (l2_norm F a) (l2_norm F b))) ∧
    ((F.beq (l2_norm F a) F.zero = true ∨ F.beq (l2_norm F b) F.zero = true) →
      cosine_similarity F a b = Except.ok F.zero) := by
  have hcc : check_compatibility a b = Except.ok () := by
    simp [check_compatibility, h]
  have h1 : cosine_similarity F a b =
      Except.ok (if F.beq (l2_norm F a) F.zero || F.beq (l2_norm F b) F.zero
        then F.zero
        else F.div (dotVal F a b) (F.mul (l2_norm F a) (l2_norm F b))) := by
    simp only [cosine_similarity, dot_product, hcc]
    split <;> rfl
  refine ⟨h1, fun hz => ?_⟩
  rw [h1]
  rcases hz with hz | hz <;> simp [hz]

/-- Witness for C5: the zero vector `[0,0]` against `[3,4]` over the
`Int` interpretation — its norm compares equal to zero, so the result
is exactly 0. -/
theorem C5_cosine_zero_policy_witness :
    cosine_similarity intModel ⟨0, 2, 0, [0, 0]⟩ ⟨0, 2, 0, [3, 4]⟩ =
      Except.ok 0 :=
  (C5_cosine_zero_policy intModel ⟨0, 2, 0, [0, 0]⟩ ⟨0, 2, 0, [3, 4]⟩ rfl).2
    (Or.inl (by decide))

end PgVec
